import Mathlib

/-!
# Verification of the greedy school scheduler and the exact MILP formulation

Shallow embedding of `src/core/greedy.py` and the parts of
`src/core/milp_soft.py` referenced by the claims.  Python dictionaries are
modelled as association lists with explicit overwrite/append/default
semantics; floating point scores are modelled exactly over `ℚ` (every
score comparison relevant to the claims is either against the literal `0`
produced by an early `return 0.0`, or a strict-improvement comparison whose
branch structure is independent of the numeric representation).
-/

namespace SchoolOpt

abbrev SectionId := String
abbrev CourseId := String
abbrev TeacherId := String
abbrev StudentId := String
abbrev Period := String

/-! ## Python dict primitives

`dictLookup`/`dictInsert` model `d[k]` / `d[k] = v` on a `dict` (insertion
order kept, assignment overwrites in place).  `dictAppend` models
`defaultdict(list)`'s `d[k].append(v)`. -/

def dictLookup {β : Type} : List (String × β) → String → Option β
  | [], _ => none
  | e :: rest, k => if e.1 = k then some e.2 else dictLookup rest k

def dictInsert {β : Type} : List (String × β) → String → β → List (String × β)
  | [], k, v => [(k, v)]
  | e :: rest, k, v => if e.1 = k then (k, v) :: rest else e :: dictInsert rest k v

def dictAppend {β : Type} : List (String × List β) → String → β → List (String × List β)
  | [], k, v => [(k, [v])]
  | e :: rest, k, v =>
      if e.1 = k then (e.1, e.2 ++ [v]) :: rest else e :: dictAppend rest k v

/-- Keep the first occurrence of each element (Python dict key order). -/
def dedupFirst {α : Type} [DecidableEq α] (l : List α) : List α :=
  l.foldl (fun acc x => if x ∈ acc then acc else acc ++ [x]) []

theorem dictLookup_insert_self {β : Type} (m : List (String × β)) (k : String) (v : β) :
    dictLookup (dictInsert m k v) k = some v := by
  induction m with
  | nil => simp [dictInsert, dictLookup]
  | cons e rest ih =>
      by_cases h : e.1 = k
      · simp [dictInsert, h, dictLookup]
      · simp [dictInsert, h, dictLookup, ih]

theorem dictLookup_insert_ne {β : Type} (m : List (String × β)) (k k' : String) (v : β)
    (hne : k' ≠ k) : dictLookup (dictInsert m k v) k' = dictLookup m k' := by
  have hkk : ¬ k = k' := fun h => hne h.symm
  induction m with
  | nil => simp [dictInsert, dictLookup, hkk]
  | cons e rest ih =>
      by_cases h : e.1 = k
      · subst h
        simp [dictInsert, dictLookup, hkk]
      · by_cases h2 : e.1 = k'
        · simp [dictInsert, h, dictLookup, h2, hne]
        · simp [dictInsert, h, dictLookup, h2, ih]

theorem dictLookup_append_self {β : Type} (m : List (String × List β)) (k : String) (v : β) :
    dictLookup (dictAppend m k v) k = some (((dictLookup m k).getD []) ++ [v]) := by
  induction m with
  | nil => simp [dictAppend, dictLookup]
  | cons e rest ih =>
      by_cases h : e.1 = k
      · simp [dictAppend, h, dictLookup]
      · simp [dictAppend, h, dictLookup, ih]

theorem dictLookup_append_ne {β : Type} (m : List (String × List β)) (k k' : String) (v : β)
    (hne : k' ≠ k) : dictLookup (dictAppend m k v) k' = dictLookup m k' := by
  have hkk : ¬ k = k' := fun h => hne h.symm
  induction m with
  | nil => simp [dictAppend, dictLookup, hkk]
  | cons e rest ih =>
      by_cases h : e.1 = k
      · subst h
        simp [dictAppend, dictLookup, hkk]
      · by_cases h2 : e.1 = k'
        · simp [dictAppend, h, dictLookup, h2, hne]
        · simp [dictAppend, h, dictLookup, h2, ih]

theorem dictLookup_some_imp_mem {β : Type} {m : List (String × β)} {k : String} {v : β}
    (h : dictLookup m k = some v) : (k, v) ∈ m := by
  induction m with
  | nil => simp [dictLookup] at h
  | cons e rest ih =>
      by_cases he : e.1 = k
      · simp [dictLookup, he] at h
        subst h
        have : e = (k, e.2) := by
          cases e; simp_all
        rw [this] at *
        exact List.mem_cons_self _ _
      · simp [dictLookup, he] at h
        exact List.mem_cons_of_mem _ (ih h)

/-! ## Small helpers shared by the embedding -/

/-- Helper for `splitOnChar`: accumulates the current field (reversed). -/
def splitOnCharAux (sep : Char) : List Char → List Char → List String
  | [], acc => [String.mk acc.reverse]
  | c :: rest, acc =>
      if c = sep then String.mk acc.reverse :: splitOnCharAux sep rest []
      else splitOnCharAux sep rest (c :: acc)

/-- Python's `s.split(sep)` for a one-character separator (the source only
splits on `";"` and `","`): fields between separators, empty fields kept,
`""` splitting to `[""]`. -/
def splitOnChar (sep : Char) (s : String) : List String :=
  splitOnCharAux sep s.toList []

/-- Python's `needle in hay` on strings (substring test). -/
def substrB (needle hay : String) : Bool :=
  hay.toList.tails.any (fun t => needle.toList.isPrefixOf t)

/-- `get_adjacent_periods` (src/core/greedy.py:268-276): the periods at the
positions directly before and after `period` in the configured order (no
wraparound).  The source raises `ValueError` when `period` is absent; in the
scheduler it is always called with `period ∈ periods`. -/
def get_adjacent_periods (period : Period) (periods : List Period) : List Period :=
  let period_idx := periods.indexOf period
  (if h : period_idx > 0 then [periods.get ⟨period_idx - 1, by
      have := List.indexOf_le_length (a := period) (l := periods)
      omega⟩] else [])
  ++ (if h : period_idx < periods.length - 1 then [periods.get ⟨period_idx + 1, by omega⟩]
      else [])

/-- Stable insertion for a descending sort: `x` is placed before the first
element whose key is strictly smaller, hence after all earlier elements with
an equal or larger key. -/
def insertDesc {α : Type} (key : α → ℚ) (x : α) : List α → List α
  | [] => [x]
  | y :: ys => if key y < key x then x :: y :: ys else y :: insertDesc key x ys

/-- Python's stable `sorted(l, key=lambda s: -key(s))`. -/
def stableSortDesc {α : Type} (key : α → ℚ) (l : List α) : List α :=
  l.foldl (fun acc x => insertDesc key x acc) []

theorem mem_insertDesc {α : Type} {key : α → ℚ} {x a : α} {l : List α}
    (h : a ∈ insertDesc key x l) : a = x ∨ a ∈ l := by
  induction l with
  | nil => simpa [insertDesc] using h
  | cons y ys ih =>
      by_cases hk : key y < key x
      · simp [insertDesc, hk] at h
        rcases h with h | h | h
        · exact Or.inl h
        · exact Or.inr (by simp [h])
        · exact Or.inr (by simp [h])
      · simp [insertDesc, hk] at h
        rcases h with h | h
        · exact Or.inr (by simp [h])
        · rcases ih h with h | h
          · exact Or.inl h
          · exact Or.inr (by simp [h])

theorem mem_stableSortDesc {α : Type} {key : α → ℚ} {a : α} {l : List α}
    (h : a ∈ stableSortDesc key l) : a ∈ l := by
  suffices H : ∀ (l : List α) (acc : List α),
      a ∈ l.foldl (fun acc x => insertDesc key x acc) acc → a ∈ acc ∨ a ∈ l by
    rcases H l [] h with h | h
    · simp at h
    · exact h
  intro l
  induction l with
  | nil => intro acc h; exact Or.inl (by simpa using h)
  | cons y ys ih =>
      intro acc h
      rcases ih _ h with h | h
      · rcases mem_insertDesc h with h | h
        · simp [h]
        · exact Or.inl h
      · simp [h]

theorem foldl_preserves_mem {α β : Type} {P : β → Prop} {f : β → α → β} {l : List α}
    (hf : ∀ b a, a ∈ l → P b → P (f b a)) {init : β} (h0 : P init) :
    P (l.foldl f init) := by
  induction l generalizing init with
  | nil => simpa using h0
  | cons x xs ih =>
      simp only [List.foldl_cons]
      exact ih (fun b a ha hb => hf b a (List.mem_cons_of_mem _ ha) hb)
        (hf init x (List.mem_cons_self _ _) h0)

/-! ## Input tables (the pandas DataFrames consumed by `preprocess_data`) -/

/-- One row of `Sections_Information.csv`: Section ID, Course ID,
Teacher Assigned, Department, `# of Seats Available`.  The spec's data model
fixes seat capacity as an integer `≥ 0`, hence `Nat`. -/
structure SectionRow where
  sectionId : SectionId
  courseId : CourseId
  teacherId : TeacherId
  dept : String
  capacity : Nat
deriving DecidableEq

/-- One row of `Student_Info.csv`: Student ID and the `SPED` column
(string-valued; the greedy path tests `== 'Yes'`). -/
structure StudentRow where
  studentId : StudentId
  sped : String
deriving DecidableEq

/-- One row of `Student_Preference_Info.csv`: Student ID and the raw
`Preferred Sections` cell (a `;`-separated list of course ids). -/
structure PrefRow where
  studentId : StudentId
  preferredSections : String
deriving DecidableEq

/-- One row of `Teacher_unavailability.csv`: Teacher ID and the raw
`Unavailable Periods` cell (`none` models a NaN cell, skipped by the
`pd.notna` test; otherwise a `,`-separated list of periods). -/
structure UnavRow where
  teacherId : TeacherId
  unavailablePeriods : Option String
deriving DecidableEq

/-- The lookup-index dictionary built by `preprocess_data`
(src/core/greedy.py:103-159).  `defaultdict` fields are total functions with
the default built in; plain-`dict` fields where the code distinguishes
presence (`.get` with two different defaults, `.items()`) keep their key
lists. -/
structure SchedData where
  /-- `course_to_sections` (defaultdict(list)): sections of a course in row
  order. -/
  course_to_sections : CourseId → List SectionId
  /-- `section_capacity` (plain dict via `set_index(...).to_dict()`):
  `none` = key absent. -/
  section_capacity : SectionId → Option Nat
  /-- `teacher_to_sections` (defaultdict(list)). -/
  teacher_to_sections : TeacherId → List SectionId
  /-- `teacher_unavailable_periods` (defaultdict(list), assigned per row). -/
  teacher_unavailable_periods : TeacherId → List Period
  /-- `student_pref_courses` dict as an ordered key/value list (its
  `.values()` are iterated when computing demand). -/
  pref_pairs : List (StudentId × List CourseId)
  /-- `special_course_periods`: the hardcoded course → required-period map. -/
  special_course_periods : CourseId → Option (List Period)
  /-- `sped_students` set membership. -/
  sped_students : StudentId → Bool
  /-- key set of the `section_to_course` / `section_to_dept` dicts, in first
  occurrence order (their `.keys()` / `.items()` are iterated). -/
  all_sections : List SectionId
  /-- `section_to_course` (plain dict; the scheduler only applies it to keys
  that are present, so the default `""` is never observable there). -/
  section_to_course : SectionId → CourseId
  /-- `section_to_teacher` (plain dict, same remark). -/
  section_to_teacher : SectionId → TeacherId
  /-- `section_to_dept` (`.get`, so `none` = key absent). -/
  section_to_dept : SectionId → Option String
  /-- the configured ordered period list. -/
  periods : List Period

/-- `student_pref_courses.get(student_id, [])` — every read in the source
uses this default. -/
def studentPrefCourses (d : SchedData) (sid : StudentId) : List CourseId :=
  (((d.pref_pairs.find? (fun pr => pr.1 = sid)).map (fun pr => pr.2)).getD [])

/-- `preprocess_data` (src/core/greedy.py:103-159).  The unused `teachers`
DataFrame parameter of the source is omitted.  `set_index(...).to_dict()`
keeps the *last* row for a duplicated key, modelled by `find?` on the
reversed row list. -/
def preprocess_data (students : List StudentRow) (student_preferences : List PrefRow)
    (sections : List SectionRow) (teacher_unavailability : List UnavRow)
    (periods : List Period) : SchedData where
  course_to_sections := fun c => (sections.filter (fun r => r.courseId = c)).map (fun r => r.sectionId)
  section_capacity := fun s =>
    (sections.reverse.find? (fun r => r.sectionId = s)).map (fun r => r.capacity)
  teacher_to_sections := fun t => (sections.filter (fun r => r.teacherId = t)).map (fun r => r.sectionId)
  teacher_unavailable_periods := fun t =>
    match (teacher_unavailability.filter (fun r => r.unavailablePeriods.isSome)).reverse.find?
        (fun r => r.teacherId = t) with
    | some r => splitOnChar ',' (r.unavailablePeriods.getD "")
    | none => []
  pref_pairs :=
    student_preferences.foldl
      (fun m r => dictInsert m r.studentId (splitOnChar ';' r.preferredSections)) []
  special_course_periods := fun c =>
    if c = "Medical Career" then some ["R1", "G1"]
    else if c = "Heroes Teach" then some ["R2", "G2"]
    else none
  sped_students := fun sid =>
    students.any (fun r => r.studentId = sid && r.sped = "Yes")
  all_sections := dedupFirst (sections.map (fun r => r.sectionId))
  section_to_course := fun s =>
    ((sections.reverse.find? (fun r => r.sectionId = s)).map (fun r => r.courseId)).getD ""
  section_to_teacher := fun s =>
    ((sections.reverse.find? (fun r => r.sectionId = s)).map (fun r => r.teacherId)).getD ""
  section_to_dept := fun s =>
    (sections.reverse.find? (fun r => r.sectionId = s)).map (fun r => r.dept)
  periods := periods

/-! ## Greedy section scheduler (src/core/greedy.py:161-369) -/

/-- `scheduled_sections`: the Section → Period dict built by the scheduler. -/
abbrev Schedule := List (SectionId × Period)

/-- Priority of one section row (body of the loop in
`compute_section_priority`, src/core/greedy.py:161-200). -/
def sectionRowPriority (row : SectionRow) (d : SchedData) : ℚ :=
  let p1 : ℚ := 1
  let p2 := if (d.special_course_periods row.courseId).isSome then p1 * 5 else p1
  let p3 := if row.courseId = "Sports Med" then p2 * 3 else p2
  let p4 := if substrB "Science" row.dept
      ∨ row.courseId ∈ ["Biology", "Chemistry", "Physics", "AP Biology"]
    then p3 * (5/2) else p3
  let teacher_section_count := (d.teacher_to_sections row.teacherId).length
  let p5 := p4 * (1 + (1/5) * teacher_section_count)
  let course_section_count := (d.course_to_sections row.courseId).length
  let p6 := p5 * (1 + 1 / (course_section_count : ℚ))
  let student_demand := (d.pref_pairs.filter (fun pr => row.courseId ∈ pr.2)).length
  p6 * (1 + (1/1000) * student_demand)

/-- `compute_section_priority` as the lookup `section_priority.get(s, 0)`
used by the scheduler's sort key: the dict stores one entry per row (last
row wins for a duplicated id) and the default `0` covers absent ids.  The
source passes `course_to_sections` / `special_course_periods` /
`teacher_to_sections` separately from `data`; they are read from `d` here. -/
def compute_section_priority (sections : List SectionRow) (d : SchedData)
    (s : SectionId) : ℚ :=
  match sections.reverse.find? (fun r => r.sectionId = s) with
  | some row => sectionRowPriority row d
  | none => 0

/-- The balancing tail of `compute_period_score`
(src/core/greedy.py:230-266), applied once the period passed every
forbidden-check; `score` is the base score (2 for an unused required period
of a special course, else 1). -/
def period_score_balance (section_id : SectionId) (period : Period)
    (scheduled_sections : Schedule) (d : SchedData) (score : ℚ) : ℚ :=
  let course_id := d.section_to_course section_id
  -- balanced distribution of this course's sections across periods
  let course_sections := d.course_to_sections course_id
  let course_period_usage :=
    (course_sections.filter (fun s => dictLookup scheduled_sections s = some period)).length
  let score := if course_period_usage > 0
    then score / (1 + (1/2) * course_period_usage) else score
  -- balanced distribution of the department's sections across periods
  let score :=
    if ((d.section_to_dept section_id).getD "") ≠ "" then
      let dept := (d.section_to_dept section_id).getD ""
      let dept_sections := d.all_sections.filter (fun s => d.section_to_dept s = some dept)
      let dept_period_usage :=
        (dept_sections.filter (fun s => dictLookup scheduled_sections s = some period)).length
      if dept_period_usage > 0 then score / (1 + (3/10) * dept_period_usage) else score
    else score
  -- avoid stacking Sports Med sections in one period
  let score :=
    if course_id = "Sports Med" then
      let sports_med_sections := d.all_sections.filter (fun s => d.section_to_course s = "Sports Med")
      let sports_med_period_usage :=
        (sports_med_sections.filter (fun s => dictLookup scheduled_sections s = some period)).length
      if sports_med_period_usage > 0 then score * (1/2) else score
    else score
  -- science prep-time decay over adjacent periods
  let score :=
    if substrB "Science" ((d.section_to_dept section_id).getD "") then
      let science_sections := d.all_sections.filter (fun s =>
        substrB "Science" ((d.section_to_dept s).getD "")
          && (dictLookup scheduled_sections s).isSome)
      let adjacent_periods := get_adjacent_periods period d.periods
      let adjacent_science_count := (science_sections.filter (fun s =>
        match dictLookup scheduled_sections s with
        | some q => q ∈ adjacent_periods
        | none => false)).length
      if adjacent_science_count > 0 then score * ((7/10) ^ adjacent_science_count) else score
    else score
  -- global balancing: fewer sections overall in this period
  let period_usage := (scheduled_sections.filter (fun e => e.2 = period)).length
  score / (1 + (1/10) * period_usage)

/-- `compute_period_score` (src/core/greedy.py:202-266): `0` exactly on the
three forbidden checks (restricted period, teacher unavailable, teacher
conflict), otherwise the balanced score with base 1 (doubled for a required
period not yet used by the course). -/
def compute_period_score (section_id : SectionId) (period : Period)
    (scheduled_sections : Schedule) (d : SchedData) : ℚ :=
  let course_id := d.section_to_course section_id
  let teacher_id := d.section_to_teacher section_id
  let base : Option ℚ :=
    match d.special_course_periods course_id with
    | some allowed =>
        if period ∉ allowed then none  -- forbidden period
        else
          let course_sections := d.course_to_sections course_id
          let period_used := course_sections.any
            (fun s => dictLookup scheduled_sections s == some period)
          some (if period_used then 1 else 2)  -- boost unused required period
    | none => some 1
  match base with
  | none => 0
  | some score =>
      if period ∈ d.teacher_unavailable_periods teacher_id then 0  -- unavailable
      else if (d.teacher_to_sections teacher_id).any
          (fun other => dictLookup scheduled_sections other == some period) then 0  -- conflict
      else period_score_balance section_id period scheduled_sections d score

/-- One `for period in periods` selection loop of the scheduler
(src/core/greedy.py:296-303 and its three copies): running best period and
best score, starting from `(None, -1)`, updated on strict improvement. -/
def pick_best_period (section_id : SectionId) (periods : List Period)
    (scheduled_sections : Schedule) (d : SchedData) : Option Period × ℚ :=
  periods.foldl
    (fun acc period =>
      let score := compute_period_score section_id period scheduled_sections d
      if score > acc.2 then (some period, score) else acc)
    (none, -1)

/-- The commit step `if best_period and best_score > 0` shared by all four
phases: note the Python truthiness of `best_period`, which also rejects an
empty-string period id. -/
def try_schedule (scheduled_sections : Schedule) (section_id : SectionId)
    (periods : List Period) (d : SchedData) : Schedule :=
  let best := pick_best_period section_id periods scheduled_sections d
  match best.1 with
  | some p => if p ≠ "" ∧ best.2 > 0 then dictInsert scheduled_sections section_id p
      else scheduled_sections
  | none => scheduled_sections

/-- `greedy_schedule_sections` (src/core/greedy.py:278-369): four phases over
the priority-sorted section list — special (period-restricted) courses,
Sports Med, science departments, then everything else; phases 2-4 skip
already-scheduled sections. -/
def greedy_schedule_sections (sections : List SectionRow) (periods : List Period)
    (d : SchedData) : Schedule :=
  let sorted_sections := stableSortDesc (compute_section_priority sections d)
    (sections.map (fun r => r.sectionId))
  let phase1 := sorted_sections.foldl (fun sched section_id =>
    if (d.special_course_periods (d.section_to_course section_id)).isSome
      then try_schedule sched section_id periods d else sched) []
  let phase2 := sorted_sections.foldl (fun sched section_id =>
    if (dictLookup sched section_id).isSome then sched
    else if d.section_to_course section_id = "Sports Med"
      then try_schedule sched section_id periods d else sched) phase1
  let phase3 := sorted_sections.foldl (fun sched section_id =>
    if (dictLookup sched section_id).isSome then sched
    else if substrB "Science" ((d.section_to_dept section_id).getD "")
      then try_schedule sched section_id periods d else sched) phase2
  sorted_sections.foldl (fun sched section_id =>
    if (dictLookup sched section_id).isSome then sched
    else try_schedule sched section_id periods d) phase3

/-! ## Greedy student assigner (src/core/greedy.py:371-520) -/

/-- `student_assignments`: the Student → list-of-Sections defaultdict. -/
abbrev Assignments := List (StudentId × List SectionId)

/-- `student_assignments.get(student_id, [])`. -/
def heldOf (asg : Assignments) (sid : StudentId) : List SectionId :=
  ((dictLookup asg sid).getD [])

/-- `len([s for s, secs in student_assignments.items() if section_id in secs])`
— the current enrollment of a section. -/
def enrolledCount (asg : Assignments) (section_id : SectionId) : Nat :=
  (asg.filter (fun e => section_id ∈ e.2)).length

/-- the ids of the students currently holding `section_id` (the
`section_students` list of the source). -/
def enrolledStudents (asg : Assignments) (section_id : SectionId) : List StudentId :=
  (asg.filter (fun e => section_id ∈ e.2)).map (fun e => e.1)

/-- `compute_student_section_score` (src/core/greedy.py:371-425): `0` exactly
on the five early returns (course already held, course not requested,
section unscheduled — including the falsy empty-string period —, period
conflict, section at or above capacity); otherwise base 1 scaled by the
remaining-capacity fraction, the exponential SPED-crowding penalty and the
scarce-course availability boost. -/
def compute_student_section_score (student_id : StudentId) (section_id : SectionId)
    (student_assignments : Assignments) (section_assignments : Schedule)
    (d : SchedData) : ℚ :=
  let course_id := d.section_to_course section_id
  let held := heldOf student_assignments student_id
  let student_courses := held.map d.section_to_course
  if course_id ∈ student_courses then 0  -- already assigned to this course
  else if course_id ∉ studentPrefCourses d student_id then 0  -- not preferred
  else
    -- `period = section_assignments.get(section_id); if not period: return 0`:
    -- both a missing key (None) and an empty-string period are falsy, so the
    -- two cases collapse to `getD ""`.
    let period := (dictLookup section_assignments section_id).getD ""
    if period = "" then 0  -- section not scheduled (or falsy period id)
    else
        let student_periods := held.map (fun sec => dictLookup section_assignments sec)
        if some period ∈ student_periods then 0  -- period conflict
        else
          let section_students := enrolledStudents student_assignments section_id
          if section_students.length ≥ (d.section_capacity section_id).getD 0 then 0  -- full
          else
            let score : ℚ := 1
            let fill_ratio : ℚ :=
              (section_students.length : ℚ) / (((d.section_capacity section_id).getD 1 : Nat) : ℚ)
            let score := score * ((11/10) - fill_ratio)
            let score :=
              if d.sped_students student_id then
                let sped_count := (section_students.filter (fun s => d.sped_students s)).length
                if sped_count ≥ 2 then score * ((1/2) ^ (sped_count - 1)) else score
              else score
            let num_sections_available :=
              ((d.course_to_sections course_id).filter
                (fun s => (dictLookup section_assignments s).isSome)).length
            let availability_score : ℚ := if num_sections_available ≤ 2 then 2 else 1
            score * availability_score

/-- `compute_student_section_score` with Python's `ZeroDivisionError` made
explicit: `none` exactly when the `fill_ratio` division would divide by
zero. -/
def compute_student_section_score_checked (student_id : StudentId) (section_id : SectionId)
    (student_assignments : Assignments) (section_assignments : Schedule)
    (d : SchedData) : Option ℚ :=
  let course_id := d.section_to_course section_id
  let held := heldOf student_assignments student_id
  let student_courses := held.map d.section_to_course
  if course_id ∈ student_courses then some 0
  else if course_id ∉ studentPrefCourses d student_id then some 0
  else
    let period := (dictLookup section_assignments section_id).getD ""
    if period = "" then some 0
    else
        let student_periods := held.map (fun sec => dictLookup section_assignments sec)
        if some period ∈ student_periods then some 0
        else
          let section_students := enrolledStudents student_assignments section_id
          if section_students.length ≥ (d.section_capacity section_id).getD 0 then some 0
          else
            if ((d.section_capacity section_id).getD 1 : Nat) = 0 then none  -- ZeroDivisionError
            else
              let score : ℚ := 1
              let fill_ratio : ℚ :=
                (section_students.length : ℚ) / (((d.section_capacity section_id).getD 1 : Nat) : ℚ)
              let score := score * ((11/10) - fill_ratio)
              let score :=
                if d.sped_students student_id then
                  let sped_count := (section_students.filter (fun s => d.sped_students s)).length
                  if sped_count ≥ 2 then score * ((1/2) ^ (sped_count - 1)) else score
                else score
              let num_sections_available :=
                ((d.course_to_sections course_id).filter
                  (fun s => (dictLookup section_assignments s).isSome)).length
              let availability_score : ℚ := if num_sections_available ≤ 2 then 2 else 1
              some (score * availability_score)

/-- Per-student hardness (src/core/greedy.py:433-449). -/
def student_hardness (d : SchedData) (student_id : StudentId) : ℚ :=
  let hardness : ℚ := 1
  let hardness := if d.sped_students student_id then hardness * 2 else hardness
  let prefs := studentPrefCourses d student_id
  let hardness := if prefs.any (fun c => c ∈ ["Medical Career", "Heroes Teach"])
    then hardness * (3/2) else hardness
  hardness * (1 + (1/10) * prefs.length)

/-- Python's `max(l, key=lambda x: x[1])`: the first element attaining the
maximal score (later elements replace only on strict improvement). -/
def maxBySnd : List (SectionId × ℚ) → Option (SectionId × ℚ)
  | [] => none
  | x :: xs => some (xs.foldl (fun acc y => if y.2 > acc.2 then y else acc) x)

/-- Phase-2 best-section search for one course (src/core/greedy.py:489-504):
running best starting at score 0, skipping unscheduled sections; the final
`if best_section:` truthiness also drops an empty-string section id. -/
def bestSectionFor (student_id : StudentId) (course_id : CourseId)
    (asg : Assignments) (scheduled_sections : Schedule) (d : SchedData) :
    Option (SectionId × ℚ) :=
  let r := (d.course_to_sections course_id).foldl
    (fun (acc : Option SectionId × ℚ) section_id =>
      if (dictLookup scheduled_sections section_id).isNone then acc
      else
        let score := compute_student_section_score student_id section_id asg
          scheduled_sections d
        if score > acc.2 then (some section_id, score) else acc)
    (none, 0)
  match r.1 with
  | some section_id => if section_id = "" then none else some (section_id, r.2)
  | none => none

/-- `greedy_assign_students` (src/core/greedy.py:427-520): students sorted
hardest-first; phase 1 commits the best positive-scoring section of each
special course; phase 2 picks the best section per remaining course, orders
those courses by score and commits each after re-validating the score. -/
def greedy_assign_students (students : List StudentRow) (scheduled_sections : Schedule)
    (d : SchedData) : Assignments :=
  let sorted_students := stableSortDesc (student_hardness d)
    (students.map (fun r => r.studentId))
  let special_courses : List CourseId := ["Medical Career", "Heroes Teach", "Sports Med"]
  -- First phase: special courses
  let a1 := sorted_students.foldl (fun asg student_id =>
    special_courses.foldl (fun asg course_id =>
      if course_id ∉ studentPrefCourses d student_id then asg
      else
        let available_sections := (d.course_to_sections course_id).filterMap
          (fun section_id =>
            if (dictLookup scheduled_sections section_id).isNone then none
            else
              let score := compute_student_section_score student_id section_id asg
                scheduled_sections d
              if score > 0 then some (section_id, score) else none)
        match maxBySnd available_sections with
        | some best => dictAppend asg student_id best.1
        | none => asg) asg) []
  -- Second phase: remaining requested courses
  sorted_students.foldl (fun asg student_id =>
    let assigned_courses := (heldOf asg student_id).map d.section_to_course
    let needed_courses := (studentPrefCourses d student_id).filter
      (fun c => c ∉ assigned_courses ∧ c ∉ special_courses)
    let best_sections := needed_courses.filterMap (fun course_id =>
      (bestSectionFor student_id course_id asg scheduled_sections d).map
        (fun bs => (course_id, bs.1, bs.2)))
    let sorted_best := stableSortDesc (fun e => e.2.2) best_sections
    sorted_best.foldl (fun asg e =>
      let score := compute_student_section_score student_id e.2.1 asg
        scheduled_sections d
      if score > 0 then dictAppend asg student_id e.2.1 else asg) asg) a1

/-- The greedy core pipeline (as composed in `main` /
`greedy_initial_solution`, src/core/greedy.py:546-573 and 698-739):
preprocess, schedule sections, then assign students. -/
def greedy_pipeline (students : List StudentRow) (student_preferences : List PrefRow)
    (sections : List SectionRow) (teacher_unavailability : List UnavRow)
    (periods : List Period) : Schedule × Assignments :=
  let d := preprocess_data students student_preferences sections teacher_unavailability periods
  let scheduled_sections := greedy_schedule_sections sections periods d
  (scheduled_sections, greedy_assign_students students scheduled_sections d)

/-- Total missed requests of an assignment: requested (student, course)
pairs for which the student holds no section of the course (spec §3's
"missed request", counted over the preference dict). -/
def missed_requests (asg : Assignments) (d : SchedData) : Nat :=
  (d.pref_pairs.map (fun pr =>
    (pr.2.filter (fun c =>
      ¬ (heldOf asg pr.1).any (fun sec => d.section_to_course sec = c))).length)).sum

/-! ## The exact MILP formulation (src/core/milp_soft.py)

Only the parts the claims refer to are embedded: the `x` / `missed_request` /
`capacity_violation` variable families, the SPED distribution constraint
family (add_constraints step 7) and the objective (set_objective). -/

/-- One row of the student table as read by the MILP path (its `SPED`
column is compared against the integer 1). -/
structure MStudentRow where
  studentId : StudentId
  sped : Int
deriving DecidableEq

/-- Input tables of `ScheduleOptimizer` (students, preferences, sections). -/
structure MilpInput where
  students : List MStudentRow
  student_preferences : List PrefRow
  sections : List SectionRow
deriving DecidableEq

/-- `self.periods` of `ScheduleOptimizer.__init__`. -/
def milp_periods : List Period := ["R1", "R2", "R3", "R4", "G1", "G2", "G3", "G4"]

/-- `self.course_period_restrictions`. -/
def course_period_restrictions (c : CourseId) : Option (List Period) :=
  if c = "Medical Career" then some ["R1", "G1"]
  else if c = "Heroes Teach" then some ["R2", "G2"]
  else none

/-- `ScheduleOptimizer.get_allowed_periods`. -/
def milp_get_allowed_periods (c : CourseId) : List Period :=
  (course_period_restrictions c).getD milp_periods

/-- `self.course_to_sections` of the MILP path (a course id is a key of the
dict exactly when this list is nonempty). -/
def milp_course_to_sections (inp : MilpInput) (c : CourseId) : List SectionId :=
  (inp.sections.filter (fun r => r.courseId = c)).map (fun r => r.sectionId)

/-- The requested courses of a student in the MILP path:
`student_preferences[... == student_id]['Preferred Sections'].iloc[0]`
(first matching row; the source raises on a missing row, modelled as `[]`). -/
def milp_prefs (inp : MilpInput) (sid : StudentId) : List CourseId :=
  match inp.student_preferences.find? (fun r => r.studentId = sid) with
  | some r => splitOnChar ';' r.preferredSections
  | none => []

/-- Key set of the binary `x[student, section]` variables
(create_variables, src/core/milp_soft.py:98-112): one per requested course
that has sections, times the course's sections. -/
def xKeys (inp : MilpInput) : List (StudentId × SectionId) :=
  inp.students.flatMap (fun st =>
    (milp_prefs inp st.studentId).flatMap (fun c =>
      if milp_course_to_sections inp c ≠ []
        then (milp_course_to_sections inp c).map (fun sec => (st.studentId, sec))
        else []))

/-- Key set of the binary `missed_request[student, course]` variables
(src/core/milp_soft.py:141-153); Python dict keys are unique, so duplicates
are removed keeping the first occurrence. -/
def missedVarKeys (inp : MilpInput) : List (StudentId × CourseId) :=
  dedupFirst (inp.students.flatMap (fun st =>
    ((milp_prefs inp st.studentId).filter (fun c => milp_course_to_sections inp c ≠ [])).map
      (fun c => (st.studentId, c))))

/-- `sped_students` of the MILP path: rows with `SPED == 1`, in row order
(duplicated student rows are kept, as `quicksum` iterates the rows). -/
def milp_sped_students (inp : MilpInput) : List StudentId :=
  (inp.students.filter (fun st => st.sped = 1)).map (fun st => st.studentId)

/-- Left side of the SPED distribution constraint of one section
(add_constraints step 7, src/core/milp_soft.py:248-256). -/
def spedSum (inp : MilpInput) (ν : StudentId × SectionId → ℤ) (sec : SectionId) : ℤ :=
  (((milp_sped_students inp).filter (fun s => (s, sec) ∈ xKeys inp)).map
    (fun s => ν (s, sec))).sum

/-- The SPED distribution constraint family: for every section of the input,
the sum of `x[student, section]` over SPED students is at most 12. -/
def sped_constraints_hold (inp : MilpInput) (ν : StudentId × SectionId → ℤ) : Prop :=
  ∀ sec ∈ inp.sections.map (fun r => r.sectionId), spedSum inp ν sec ≤ 12

/-- Number of enrolled SPED students of a section under an `x` assignment. -/
def enrolledSpedCount (inp : MilpInput) (ν : StudentId × SectionId → ℤ)
    (sec : SectionId) : Nat :=
  ((milp_sped_students inp).filter
    (fun s => (s, sec) ∈ xKeys inp ∧ ν (s, sec) = 1)).length

/-- The decision-variable families of the exact formulation that the
objective refers to. -/
inductive MilpVar : Type
  | xv : StudentId → SectionId → MilpVar
  | missedv : StudentId → CourseId → MilpVar
  | overflowv : SectionId → MilpVar
deriving DecidableEq

/-- A Gurobi linear expression as a list of (coefficient, variable) terms. -/
abbrev LinExpr := List (ℚ × MilpVar)

/-- `gp.quicksum` over a list of variables. -/
def quicksum (vars : List MilpVar) : LinExpr := vars.map (fun v => (1, v))

/-- Multiplying a linear expression by a scalar. -/
def scaleExpr (a : ℚ) (e : LinExpr) : LinExpr := e.map (fun t => (a * t.1, t.2))

/-- Value of a linear expression under a variable assignment. -/
def evalExpr (ν : MilpVar → ℚ) (e : LinExpr) : ℚ :=
  (e.map (fun t => t.1 * ν t.2)).sum

/-- An objective: expression plus sense (`true` = minimize). -/
structure ObjectiveSpec where
  expr : LinExpr
  minimizeSense : Bool
deriving DecidableEq

/-- `capacity_violation` keys: one per section row, dict-deduplicated
(src/core/milp_soft.py:155-163). -/
def overflowVarKeys (inp : MilpInput) : List SectionId :=
  dedupFirst (inp.sections.map (fun r => r.sectionId))

/-- `ScheduleOptimizer.set_objective` (src/core/milp_soft.py:260-278):
`1000 * quicksum(missed_request) + 1 * quicksum(capacity_violation)`,
minimized. -/
def set_objective (inp : MilpInput) : ObjectiveSpec :=
  let missed_requests_penalty :=
    scaleExpr 1000 (quicksum ((missedVarKeys inp).map (fun k => MilpVar.missedv k.1 k.2)))
  let capacity_penalty :=
    scaleExpr 1 (quicksum ((overflowVarKeys inp).map (fun s => MilpVar.overflowv s)))
  { expr := missed_requests_penalty ++ capacity_penalty, minimizeSense := true }

/-! ## Scheduler invariants -/

theorem compute_period_score_eq_zero_of_conflict {section_id : SectionId} {period : Period}
    {sched : Schedule} {d : SchedData}
    (hany : (d.teacher_to_sections (d.section_to_teacher section_id)).any
      (fun other => dictLookup sched other == some period) = true) :
    compute_period_score section_id period sched d = 0 := by
  unfold compute_period_score
  cases hspec : d.special_course_periods (d.section_to_course section_id) with
  | none => simp [hspec, hany]
  | some allowed =>
      by_cases hp : period ∈ allowed
      · simp [hspec, hp, hany]
      · simp [hspec, hp]

theorem compute_period_score_pos_no_conflict {section_id : SectionId} {period : Period}
    {sched : Schedule} {d : SchedData}
    (h : 0 < compute_period_score section_id period sched d) :
    ∀ other ∈ d.teacher_to_sections (d.section_to_teacher section_id),
      dictLookup sched other ≠ some period := by
  intro other hmem heq
  have hany : (d.teacher_to_sections (d.section_to_teacher section_id)).any
      (fun o => dictLookup sched o == some period) = true :=
    List.any_eq_true.mpr ⟨other, hmem, by simp [heq]⟩
  rw [compute_period_score_eq_zero_of_conflict hany] at h
  exact lt_irrefl 0 h

theorem compute_period_score_pos_allowed {section_id : SectionId} {period : Period}
    {sched : Schedule} {d : SchedData}
    (h : 0 < compute_period_score section_id period sched d) :
    ∀ allowed, d.special_course_periods (d.section_to_course section_id) = some allowed →
      period ∈ allowed := by
  intro allowed hspec
  by_contra hp
  rw [show compute_period_score section_id period sched d = 0 by
    unfold compute_period_score
    simp [hspec, hp]] at h
  exact lt_irrefl 0 h

/-- Full characterisation of the selection loop: when it returns a period,
that period splits the list so that every earlier period scores strictly
below the returned (maximal) score, and the returned score is the period's
own score. -/
theorem foldl_best_charact (score : Period → ℚ) :
    ∀ (l : List Period) (acc : Option Period × ℚ) (p : Period),
    (l.foldl (fun acc period =>
      if score period > acc.2 then (some period, score period) else acc) acc).1 = some p →
    (l.foldl (fun acc period =>
        if score period > acc.2 then (some period, score period) else acc) acc = acc
      ∧ acc.1 = some p ∧ ∀ q ∈ l, score q ≤ acc.2)
    ∨ (∃ l1 l2, l = l1 ++ p :: l2
        ∧ (∀ q ∈ l1, score q < (l.foldl (fun acc period =>
            if score period > acc.2 then (some period, score period) else acc) acc).2)
        ∧ acc.2 < (l.foldl (fun acc period =>
            if score period > acc.2 then (some period, score period) else acc) acc).2
        ∧ (l.foldl (fun acc period =>
            if score period > acc.2 then (some period, score period) else acc) acc).2 = score p
        ∧ ∀ q ∈ l2, score q ≤ (l.foldl (fun acc period =>
            if score period > acc.2 then (some period, score period) else acc) acc).2) := by
  intro l
  induction l with
  | nil =>
      intro acc p h
      exact Or.inl ⟨rfl, h, by simp⟩
  | cons x xs ih =>
      intro acc p h
      simp only [List.foldl_cons] at h ⊢
      by_cases hx : score x > acc.2
      · simp only [if_pos hx] at h ⊢
        rcases ih (some x, score x) p h with ⟨heq, hp, hall⟩ | ⟨l1, l2, hsplit, hlt, hacc, hsc, hle⟩
        · -- no further update: the head's own update produced the result
          have hxp : x = p := by simpa using hp
          subst hxp
          rw [heq]
          refine Or.inr ⟨[], xs, rfl, by simp, by simpa using hx, rfl, by simpa using hall⟩
        · have hax : ((some x, score x) : Option Period × ℚ).2 < (xs.foldl (fun acc period =>
              if score period > acc.2 then (some period, score period) else acc)
              (some x, score x)).2 := hacc
          refine Or.inr ⟨x :: l1, l2, by rw [hsplit]; rfl, ?_, ?_, hsc, hle⟩
          · intro q hq
            rcases List.mem_cons.mp hq with hq | hq
            · subst hq; exact hax
            · exact hlt q hq
          · exact lt_trans hx hax
      · simp only [if_neg hx] at h ⊢
        rcases ih acc p h with ⟨heq, hp, hall⟩ | ⟨l1, l2, hsplit, hlt, hacc, hsc, hle⟩
        · refine Or.inl ⟨heq, hp, ?_⟩
          intro q hq
          rcases List.mem_cons.mp hq with hq | hq
          · subst hq; exact le_of_not_lt hx
          · exact hall q hq
        · refine Or.inr ⟨x :: l1, l2, by rw [hsplit]; rfl, ?_, hacc, hsc, hle⟩
          intro q hq
          rcases List.mem_cons.mp hq with hq | hq
          · subst hq; exact lt_of_le_of_lt (le_of_not_lt hx) hacc
          · exact hlt q hq

/-- When the selection loop returns a period, the returned score is that
period's score, the period occurs in the list, and no listed period scores
higher. -/
theorem pick_best_period_spec {section_id : SectionId} {periods : List Period}
    {sched : Schedule} {d : SchedData} {p : Period}
    (h : (pick_best_period section_id periods sched d).1 = some p) :
    (pick_best_period section_id periods sched d).2
        = compute_period_score section_id p sched d
      ∧ p ∈ periods
      ∧ ∀ q ∈ periods, compute_period_score section_id q sched d
          ≤ (pick_best_period section_id periods sched d).2 := by
  have hch := foldl_best_charact (fun q => compute_period_score section_id q sched d)
    periods (none, -1) p h
  rcases hch with ⟨_, hp, _⟩ | ⟨l1, l2, hsplit, hlt, _, hsc, hle⟩
  · simp at hp
  · refine ⟨hsc, by rw [hsplit]; exact List.mem_append_right _ (List.mem_cons_self _ _), ?_⟩
    intro q hq
    rw [hsplit] at hq
    rcases List.mem_append.mp hq with hq | hq
    · exact le_of_lt (hlt q hq)
    · rcases List.mem_cons.mp hq with hq | hq
      · subst hq; exact le_of_eq hsc.symm
      · exact hle q hq

/-- The schedule invariant carried through all four phases: every scheduled
section is one of the input sections, its period is a configured period
inside its course's restricted set (when restricted), and no two sections of
one teacher share a period. -/
def SchedInv (secIds : List SectionId) (periods : List Period) (d : SchedData)
    (sched : Schedule) : Prop :=
  (∀ s q, dictLookup sched s = some q → s ∈ secIds)
  ∧ (∀ s p, dictLookup sched s = some p → p ∈ periods
      ∧ ∀ allowed, d.special_course_periods (d.section_to_course s) = some allowed →
          p ∈ allowed)
  ∧ (∀ s1 s2 p, s1 ≠ s2 → d.section_to_teacher s1 = d.section_to_teacher s2 →
      dictLookup sched s1 = some p → dictLookup sched s2 = some p → False)

theorem try_schedule_inv {secIds : List SectionId} {periods : List Period}
    {d : SchedData} {sched : Schedule} {section_id : SectionId}
    (hcons : ∀ s ∈ secIds, s ∈ d.teacher_to_sections (d.section_to_teacher s))
    (hmem : section_id ∈ secIds)
    (hinv : SchedInv secIds periods d sched) :
    SchedInv secIds periods d (try_schedule sched section_id periods d) := by
  obtain ⟨hkeys, hallow, hconf⟩ := hinv
  unfold try_schedule
  cases hbp : (pick_best_period section_id periods sched d).1 with
  | none =>
      simp only [hbp]
      exact ⟨hkeys, hallow, hconf⟩
  | some p =>
      simp only [hbp]
      by_cases hcommit : p ≠ "" ∧ (pick_best_period section_id periods sched d).2 > 0
      · rw [if_pos hcommit]
        obtain ⟨hsc, hpmem, _⟩ := pick_best_period_spec hbp
        have hpos : 0 < compute_period_score section_id p sched d := by
          rw [← hsc]; exact hcommit.2
        refine ⟨?_, ?_, ?_⟩
        · intro s q hl
          by_cases hs : s = section_id
          · subst hs; exact hmem
          · exact hkeys s q (by rwa [dictLookup_insert_ne sched section_id s p hs] at hl)
        · intro s q hl
          by_cases hs : s = section_id
          · subst hs
            rw [dictLookup_insert_self] at hl
            have hq : q = p := by injection hl with h; exact h.symm
            subst hq
            exact ⟨hpmem, compute_period_score_pos_allowed hpos⟩
          · exact hallow s q (by rwa [dictLookup_insert_ne sched section_id s p hs] at hl)
        · intro s1 s2 q hne ht h1 h2
          by_cases hs1 : s1 = section_id
          · subst hs1
            have hs2 : s2 ≠ s1 := fun h => hne h.symm
            rw [dictLookup_insert_self] at h1
            have hq : q = p := by injection h1 with h; exact h.symm
            subst hq
            rw [dictLookup_insert_ne sched s1 s2 q hs2] at h2
            have hmem2 : s2 ∈ d.teacher_to_sections (d.section_to_teacher s1) := by
              rw [ht]
              exact hcons s2 (hkeys s2 q h2)
            exact compute_period_score_pos_no_conflict hpos s2 hmem2 h2
          · by_cases hs2 : s2 = section_id
            · subst hs2
              rw [dictLookup_insert_self] at h2
              have hq : q = p := by injection h2 with h; exact h.symm
              subst hq
              rw [dictLookup_insert_ne sched s2 s1 q hs1] at h1
              have hmem1 : s1 ∈ d.teacher_to_sections (d.section_to_teacher s2) := by
                rw [← ht]
                exact hcons s1 (hkeys s1 q h1)
              exact compute_period_score_pos_no_conflict hpos s1 hmem1 h1
            · rw [dictLookup_insert_ne sched section_id s1 p hs1] at h1
              rw [dictLookup_insert_ne sched section_id s2 p hs2] at h2
              exact hconf s1 s2 q hne ht h1 h2
      · rw [if_neg hcommit]
        exact ⟨hkeys, hallow, hconf⟩

/-- The four phases preserve the invariant from the empty schedule. -/
theorem greedy_schedule_sections_inv {sections : List SectionRow}
    {periods : List Period} {d : SchedData}
    (hcons : ∀ s ∈ sections.map (fun r => r.sectionId),
      s ∈ d.teacher_to_sections (d.section_to_teacher s)) :
    SchedInv (sections.map (fun r => r.sectionId)) periods d
      (greedy_schedule_sections sections periods d) := by
  unfold greedy_schedule_sections
  have hsorted : ∀ s ∈ stableSortDesc (compute_section_priority sections d)
      (sections.map (fun r => r.sectionId)), s ∈ sections.map (fun r => r.sectionId) :=
    fun s hs => mem_stableSortDesc hs
  have hbase : SchedInv (sections.map (fun r => r.sectionId)) periods d [] := by
    refine ⟨?_, ?_, ?_⟩ <;> intro s <;> intros <;> simp [dictLookup] at *
  refine foldl_preserves_mem (fun sched sid hmem hinv => ?_)
    (foldl_preserves_mem (fun sched sid hmem hinv => ?_)
      (foldl_preserves_mem (fun sched sid hmem hinv => ?_)
        (foldl_preserves_mem (fun sched sid hmem hinv => ?_) hbase)))
  · split
    · exact hinv
    · exact try_schedule_inv hcons (hsorted _ hmem) hinv
  · split
    · exact hinv
    · split
      · exact try_schedule_inv hcons (hsorted _ hmem) hinv
      · exact hinv
  · split
    · exact hinv
    · split
      · exact try_schedule_inv hcons (hsorted _ hmem) hinv
      · exact hinv
  · split
    · exact try_schedule_inv hcons (hsorted _ hmem) hinv
    · exact hinv

/-- `preprocess_data` produces mutually consistent `section_to_teacher` /
`teacher_to_sections` indices on the input's section ids. -/
theorem preprocess_teacher_consistent (students : List StudentRow)
    (student_preferences : List PrefRow) (sections : List SectionRow)
    (teacher_unavailability : List UnavRow) (periods : List Period) :
    ∀ s ∈ sections.map (fun r => r.sectionId),
      s ∈ (preprocess_data students student_preferences sections teacher_unavailability
            periods).teacher_to_sections
          ((preprocess_data students student_preferences sections teacher_unavailability
            periods).section_to_teacher s) := by
  intro s hs
  obtain ⟨r, hrmem, hrs⟩ := List.mem_map.mp hs
  have hsome : (sections.reverse.find? (fun r => r.sectionId = s)).isSome := by
    rw [List.find?_isSome]
    exact ⟨r, List.mem_reverse.mpr hrmem, by simp [hrs]⟩
  obtain ⟨r', hr'⟩ := Option.isSome_iff_exists.mp hsome
  have hr'mem : r' ∈ sections := List.mem_reverse.mp (List.mem_of_find?_eq_some hr')
  have hr's : r'.sectionId = s := by
    have := List.find?_some hr'
    simpa using this
  simp only [preprocess_data, hr']
  exact List.mem_map.mpr ⟨r', List.mem_filter.mpr ⟨hr'mem, by simp⟩, hr's⟩

/-! ## Assigner invariants -/

theorem heldOf_append_self (m : Assignments) (k : StudentId) (v : SectionId) :
    heldOf (dictAppend m k v) k = heldOf m k ++ [v] := by
  simp [heldOf, dictLookup_append_self]

theorem heldOf_append_ne (m : Assignments) (k k' : StudentId) (v : SectionId)
    (h : k' ≠ k) : heldOf (dictAppend m k v) k' = heldOf m k' := by
  simp [heldOf, dictLookup_append_ne m k k' v h]

theorem enrolledCount_cons (e : StudentId × List SectionId) (rest : Assignments)
    (sec : SectionId) :
    enrolledCount (e :: rest) sec
      = (if sec ∈ e.2 then 1 else 0) + enrolledCount rest sec := by
  simp only [enrolledCount, List.filter_cons]
  by_cases h : sec ∈ e.2
  · simp [h, Nat.add_comm]
  · simp [h]

theorem enrolledCount_append_le (m : Assignments) (k : StudentId) (v sec : SectionId) :
    enrolledCount (dictAppend m k v) sec
      ≤ enrolledCount m sec + (if v = sec then 1 else 0) := by
  induction m with
  | nil =>
      show enrolledCount [(k, [v])] sec ≤ _
      rw [enrolledCount_cons]
      by_cases h : sec = v
      · simp [enrolledCount, dictLookup, h]
      · have h2 : ¬ v = sec := fun hh => h hh.symm
        simp [enrolledCount, dictLookup, h, h2]
  | cons e rest ih =>
      by_cases h : e.1 = k
      · rw [show dictAppend (e :: rest) k v = (e.1, e.2 ++ [v]) :: rest by
          simp [dictAppend, h]]
        rw [enrolledCount_cons, enrolledCount_cons]
        simp only
        by_cases h1 : sec ∈ e.2
        · have hm : sec ∈ e.2 ++ [v] := List.mem_append_left _ h1
          by_cases h2 : v = sec <;> simp [h1, h2, hm]
        · by_cases h2 : v = sec
          · have hm : sec ∈ e.2 ++ [v] := List.mem_append_right _ (by simp [h2])
            simp only [h1, h2, hm, if_true, if_false, if_pos, if_neg]
            simp
            omega
          · have hm : sec ∉ e.2 ++ [v] := by
              simp only [List.mem_append, List.mem_singleton]
              rintro (hh | hh)
              · exact h1 hh
              · exact h2 hh.symm
            simp [h1, h2, hm]
      · rw [show dictAppend (e :: rest) k v = e :: dictAppend rest k v by
          simp [dictAppend, h]]
        rw [enrolledCount_cons, enrolledCount_cons]
        by_cases h1 : sec ∈ e.2 <;> simp [h1] <;> omega

theorem enrolledStudents_length (asg : Assignments) (sec : SectionId) :
    (enrolledStudents asg sec).length = enrolledCount asg sec := by
  simp [enrolledStudents, enrolledCount]

/-- A positive student-section score certifies every commit precondition:
the course is new for the student, the section is scheduled in a nonempty
period the student does not yet occupy, and a seat is free. -/
theorem compute_student_section_score_pos {student_id : StudentId} {section_id : SectionId}
    {asg : Assignments} {sched : Schedule} {d : SchedData}
    (h : 0 < compute_student_section_score student_id section_id asg sched d) :
    d.section_to_course section_id ∉ (heldOf asg student_id).map d.section_to_course
    ∧ (∃ p, dictLookup sched section_id = some p ∧ p ≠ ""
        ∧ some p ∉ (heldOf asg student_id).map (fun sec => dictLookup sched sec))
    ∧ enrolledCount asg section_id < (d.section_capacity section_id).getD 0 := by
  by_cases h1 : d.section_to_course section_id
      ∈ List.map d.section_to_course (heldOf asg student_id)
  · rw [show compute_student_section_score student_id section_id asg sched d = 0 by
      simp [compute_student_section_score, h1]] at h
    exact absurd h (lt_irrefl 0)
  by_cases h2 : d.section_to_course section_id ∈ studentPrefCourses d student_id
  case neg =>
    rw [show compute_student_section_score student_id section_id asg sched d = 0 by
      simp [compute_student_section_score, h1, h2]] at h
    exact absurd h (lt_irrefl 0)
  by_cases h3 : (dictLookup sched section_id).getD "" = ""
  · rw [show compute_student_section_score student_id section_id asg sched d = 0 by
      simp [compute_student_section_score, h1, h2, h3]] at h
    exact absurd h (lt_irrefl 0)
  by_cases h4 : some ((dictLookup sched section_id).getD "")
      ∈ List.map (fun sec => dictLookup sched sec) (heldOf asg student_id)
  · rw [show compute_student_section_score student_id section_id asg sched d = 0 by
      simp [compute_student_section_score, h1, h2, h3, h4]] at h
    exact absurd h (lt_irrefl 0)
  by_cases h5 : (enrolledStudents asg section_id).length
      ≥ (d.section_capacity section_id).getD 0
  · rw [show compute_student_section_score student_id section_id asg sched d = 0 by
      simp [compute_student_section_score, h1, h2, h3, h4, h5]] at h
    exact absurd h (lt_irrefl 0)
  refine ⟨h1, ⟨(dictLookup sched section_id).getD "", ?_, h3, h4⟩, ?_⟩
  · cases ho : dictLookup sched section_id with
    | none => rw [ho] at h3; simp at h3
    | some q => simp
  · have := enrolledStudents_length asg section_id
    omega

/-- Score is `0` for a section at or above capacity (every branch of the
score function yields `0` there). -/
theorem compute_student_section_score_eq_zero_of_full {student_id : StudentId}
    {section_id : SectionId} {asg : Assignments} {sched : Schedule} {d : SchedData}
    (h : enrolledCount asg section_id ≥ (d.section_capacity section_id).getD 0) :
    compute_student_section_score student_id section_id asg sched d = 0 := by
  have h5 : (enrolledStudents asg section_id).length
      ≥ (d.section_capacity section_id).getD 0 := by
    rw [enrolledStudents_length]; exact h
  by_cases h1 : d.section_to_course section_id
      ∈ List.map d.section_to_course (heldOf asg student_id)
  · simp [compute_student_section_score, h1]
  by_cases h2 : d.section_to_course section_id ∈ studentPrefCourses d student_id
  case neg => simp [compute_student_section_score, h1, h2]
  by_cases h3 : (dictLookup sched section_id).getD "" = ""
  · simp [compute_student_section_score, h1, h2, h3]
  by_cases h4 : some ((dictLookup sched section_id).getD "")
      ∈ List.map (fun sec => dictLookup sched sec) (heldOf asg student_id)
  · simp [compute_student_section_score, h1, h2, h3, h4]
  · simp [compute_student_section_score, h1, h2, h3, h4, h5]

theorem maxBySnd_mem {l : List (SectionId × ℚ)} {x : SectionId × ℚ}
    (h : maxBySnd l = some x) : x ∈ l := by
  cases l with
  | nil => simp [maxBySnd] at h
  | cons y ys =>
      simp only [maxBySnd, Option.some.injEq] at h
      subst h
      suffices H : ∀ (ys : List (SectionId × ℚ)) (y : SectionId × ℚ),
          ys.foldl (fun acc z => if z.2 > acc.2 then z else acc) y ∈ y :: ys by
        exact H ys y
      intro ys
      induction ys with
      | nil => intro y; simp
      | cons z zs ih =>
          intro y
          simp only [List.foldl_cons]
          by_cases hz : z.2 > y.2
          · rw [if_pos hz]
            rcases List.mem_cons.mp (ih z) with h | h
            · simp [h]
            · simp [List.mem_cons_of_mem, h]
          · rw [if_neg hz]
            rcases List.mem_cons.mp (ih y) with h | h
            · simp [h]
            · simp [List.mem_cons_of_mem, h]

/-- The assignment invariant carried through both phases: per student, the
held sections have pairwise-distinct courses and pairwise-distinct scheduled
periods (all scheduled, with non-falsy period ids); per section, enrollment
never exceeds capacity. -/
def AsgInv (sched : Schedule) (d : SchedData) (asg : Assignments) : Prop :=
  (∀ sid, ((heldOf asg sid).map (fun sec => dictLookup sched sec)).Nodup
      ∧ ((heldOf asg sid).map d.section_to_course).Nodup
      ∧ ∀ sec ∈ heldOf asg sid, ∃ p, dictLookup sched sec = some p ∧ p ≠ "")
  ∧ (∀ sec, enrolledCount asg sec ≤ (d.section_capacity sec).getD 0)

theorem AsgInv.commit {sched : Schedule} {d : SchedData} {asg : Assignments}
    {student_id : StudentId} {section_id : SectionId}
    (hinv : AsgInv sched d asg)
    (hpos : 0 < compute_student_section_score student_id section_id asg sched d) :
    AsgInv sched d (dictAppend asg student_id section_id) := by
  obtain ⟨hstu, hcap⟩ := hinv
  obtain ⟨hcourse, ⟨p, hlook, hpe, hpconf⟩, hfree⟩ := compute_student_section_score_pos hpos
  constructor
  · intro sid
    by_cases hs : sid = student_id
    · subst hs
      rw [heldOf_append_self]
      obtain ⟨hper, hcrs, hsch⟩ := hstu sid
      refine ⟨?_, ?_, ?_⟩
      · rw [List.map_append]
        simp only [List.map_cons, List.map_nil]
        rw [List.nodup_append]
        refine ⟨hper, List.nodup_singleton _, ?_⟩
        intro a ha hb
        simp only [List.mem_singleton] at hb
        subst hb
        rw [hlook] at ha
        exact hpconf ha
      · rw [List.map_append]
        simp only [List.map_cons, List.map_nil]
        rw [List.nodup_append]
        refine ⟨hcrs, List.nodup_singleton _, ?_⟩
        intro a ha hb
        simp only [List.mem_singleton] at hb
        subst hb
        exact hcourse ha
      · intro sec hsec
        rcases List.mem_append.mp hsec with hsec | hsec
        · exact hsch sec hsec
        · simp only [List.mem_singleton] at hsec
          subst hsec
          exact ⟨p, hlook, hpe⟩
    · rw [heldOf_append_ne asg student_id sid section_id hs]
      exact hstu sid
  · intro sec
    calc enrolledCount (dictAppend asg student_id section_id) sec
        ≤ enrolledCount asg sec + (if section_id = sec then 1 else 0) :=
          enrolledCount_append_le asg student_id section_id sec
      _ ≤ (d.section_capacity sec).getD 0 := by
          by_cases hsec : section_id = sec
          · subst hsec
            simp only [if_pos rfl] at *
            simp at *
            omega
          · simp only [if_neg hsec]
            simpa using hcap sec

/-- Both assignment phases preserve the invariant from the empty
assignment: every commit is guarded by a positive score computed against the
current state. -/
theorem greedy_assign_students_inv (students : List StudentRow) (sched : Schedule)
    (d : SchedData) : AsgInv sched d (greedy_assign_students students sched d) := by
  unfold greedy_assign_students
  have hbase : AsgInv sched d [] := by
    constructor
    · intro sid
      simp [heldOf, dictLookup]
    · intro sec
      simp [enrolledCount]
  refine foldl_preserves_mem (fun asg sid hmem hinv => ?_)
    (foldl_preserves_mem (fun asg sid hmem hinv => ?_) hbase)
  · -- phase 2: each commit re-validates the score against the current state
    refine foldl_preserves_mem (fun asg2 e hm2 hinv2 => ?_) hinv
    show AsgInv sched d
      (if compute_student_section_score sid e.2.1 asg2 sched d > 0
        then dictAppend asg2 sid e.2.1 else asg2)
    by_cases hc : compute_student_section_score sid e.2.1 asg2 sched d > 0
    · rw [if_pos hc]
      exact hinv2.commit hc
    · rw [if_neg hc]
      exact hinv2
  · -- phase 1: the committed section comes from the positive-score pool
    refine foldl_preserves_mem (fun asg2 c hm2 hinv2 => ?_) hinv
    show AsgInv sched d
      (if c ∉ studentPrefCourses d sid then asg2
        else match maxBySnd ((d.course_to_sections c).filterMap (fun section_id =>
            if (dictLookup sched section_id).isNone then none
            else
              let score := compute_student_section_score sid section_id asg2 sched d
              if score > 0 then some (section_id, score) else none)) with
          | some best => dictAppend asg2 sid best.1
          | none => asg2)
    by_cases hp : c ∉ studentPrefCourses d sid
    · rw [if_pos hp]
      exact hinv2
    · rw [if_neg hp]
      cases hmb : maxBySnd ((d.course_to_sections c).filterMap (fun section_id =>
          if (dictLookup sched section_id).isNone then none
          else
            let score := compute_student_section_score sid section_id asg2 sched d
            if score > 0 then some (section_id, score) else none)) with
      | none => exact hinv2
      | some best =>
          obtain ⟨a, hamem, hfa⟩ := List.mem_filterMap.mp (maxBySnd_mem hmb)
          by_cases h1 : (dictLookup sched a).isNone
          · rw [if_pos h1] at hfa
            exact absurd hfa (by simp)
          · rw [if_neg h1] at hfa
            by_cases h2 : compute_student_section_score sid a asg2 sched d > 0
            · simp only [h2, if_true, Option.some.injEq] at hfa
              have hb1 : best.1 = a := by rw [← hfa]
              show AsgInv sched d (dictAppend asg2 sid best.1)
              rw [hb1]
              exact hinv2.commit h2
            · simp only [h2, if_false] at hfa
              exact absurd hfa (by simp)

/-! ## Further helpers for the claims -/

/-- The allowed-period set of a section: the course's restricted set for a
period-restricted course, all configured periods otherwise (spec §3). -/
def allowed_period_set (d : SchedData) (s : SectionId) : List Period :=
  match d.special_course_periods (d.section_to_course s) with
  | some allowed => allowed
  | none => d.periods

/-- `d` with one section's seat capacity replaced. -/
def bump_capacity (d : SchedData) (sec : SectionId) (c : Nat) : SchedData :=
  { d with section_capacity := fun s => if s = sec then some c else d.section_capacity s }

/-- The student-section score is never negative. -/
theorem compute_student_section_score_nonneg (student_id section_id : String)
    (asg : Assignments) (sched : Schedule) (d : SchedData) :
    0 ≤ compute_student_section_score student_id section_id asg sched d := by
  by_cases h1 : d.section_to_course section_id
      ∈ List.map d.section_to_course (heldOf asg student_id)
  · simp [compute_student_section_score, h1]
  by_cases h2 : d.section_to_course section_id ∈ studentPrefCourses d student_id
  case neg => simp [compute_student_section_score, h1, h2]
  by_cases h3 : (dictLookup sched section_id).getD "" = ""
  · simp [compute_student_section_score, h1, h2, h3]
  by_cases h4 : some ((dictLookup sched section_id).getD "")
      ∈ List.map (fun sec => dictLookup sched sec) (heldOf asg student_id)
  · simp [compute_student_section_score, h1, h2, h3, h4]
  by_cases h5 : (enrolledStudents asg section_id).length
      ≥ (d.section_capacity section_id).getD 0
  · simp [compute_student_section_score, h1, h2, h3, h4, h5]
  · cases hcap : d.section_capacity section_id with
    | none =>
        rw [hcap] at h5
        simp at h5
    | some c =>
        have hc1 : (enrolledStudents asg section_id).length < c := by
          rw [hcap] at h5
          simpa using Nat.lt_of_not_le h5
        have hbase : (0:ℚ) ≤ (11/10)
            - ((enrolledStudents asg section_id).length : ℚ) / (c : ℚ) := by
          have hcpos : (0:ℚ) < (c : ℚ) := by
            exact_mod_cast Nat.lt_of_le_of_lt (Nat.zero_le _) hc1
          have : ((enrolledStudents asg section_id).length : ℚ) / (c : ℚ) ≤ 1 := by
            rw [div_le_one hcpos]
            exact_mod_cast le_of_lt hc1
          linarith
        simp [compute_student_section_score, h1, h2, h3, h4, h5, hcap]
        split
        · norm_num
        · split
          · split
            · split
              · exact mul_nonneg (mul_nonneg hbase (by positivity)) (by norm_num)
              · exact mul_nonneg hbase (by norm_num)
            · exact mul_nonneg hbase (by norm_num)
          · split
            · split
              · exact mul_nonneg hbase (by positivity)
              · exact hbase
            · exact hbase

theorem evalExpr_append (ν : MilpVar → ℚ) (a b : LinExpr) :
    evalExpr ν (a ++ b) = evalExpr ν a + evalExpr ν b := by
  simp [evalExpr]

theorem evalExpr_scale_quicksum (ν : MilpVar → ℚ) (a : ℚ) (vars : List MilpVar) :
    evalExpr ν (scaleExpr a (quicksum vars)) = a * (vars.map ν).sum := by
  induction vars with
  | nil => simp [evalExpr, scaleExpr, quicksum]
  | cons v vs ih =>
      simp only [quicksum, scaleExpr, evalExpr, List.map_cons, List.sum_cons] at ih ⊢
      rw [ih]
      ring

/-- Counting members that are enrolled (value 1) is bounded by summing the
0/1 variable over the same member pool. -/
theorem count_ones_le_sum (l : List StudentId) (mem : StudentId → Prop)
    [DecidablePred mem] (g : StudentId → ℤ)
    (hb : ∀ s ∈ l, mem s → g s = 0 ∨ g s = 1) :
    ((l.filter (fun s => mem s ∧ g s = 1)).length : ℤ)
      ≤ ((l.filter (fun s => mem s)).map g).sum := by
  induction l with
  | nil => simp
  | cons s rest ih =>
      have hrest := ih (fun x hx => hb x (List.mem_cons_of_mem _ hx))
      by_cases hm : mem s
      · rcases hb s (List.mem_cons_self _ _) hm with hs | hs
        · rw [List.filter_cons, if_neg (by simp [hs]), List.filter_cons,
            if_pos (by simp [hm])]
          simp only [List.map_cons, List.sum_cons, hs]
          omega
        · rw [List.filter_cons, if_pos (by simp [hm, hs]), List.filter_cons,
            if_pos (by simp [hm])]
          simp only [List.length_cons, List.map_cons, List.sum_cons, hs]
          push_cast
          omega
      · rw [List.filter_cons, if_neg (by simp [hm]), List.filter_cons,
          if_neg (by simp [hm])]
        exact hrest

/-! ## Concrete scenario data -/

/-- Scenario A (spec §8): one period-restricted course section, teacher
available in every period. -/
def scenA_sections : List SectionRow := [⟨"S1", "Medical Career", "T1", "CTE", 30⟩]

def scenA_d : SchedData := preprocess_data [] [] scenA_sections [] milp_periods

/-- Two sections of one teacher (for the teacher-conflict witness). -/
def w1_sections : List SectionRow :=
  [⟨"S1", "C1", "T", "Math", 30⟩, ⟨"S2", "C2", "T", "Math", 30⟩]

def w1_d : SchedData := preprocess_data [] [] w1_sections [] ["P1", "P2"]

/-- Scenario B (spec §8): two students requesting a course with one
capacity-1 section. -/
def scenB_students : List StudentRow := [⟨"A", "No"⟩, ⟨"B", "No"⟩]

def scenB_prefs : List PrefRow := [⟨"A", "C"⟩, ⟨"B", "C"⟩]

def scenB_sections : List SectionRow := [⟨"S1", "C", "T", "Math", 1⟩]

/-- Capacity-monotonicity counterexample: one student requesting courses C
and D; D has a single section taught in the same period that course C's
first-listed section ends up in (the teacher of C's first section is
unavailable in P2, pinning it to P1 next to D's section). -/
def c6_students : List StudentRow := [⟨"A", "No"⟩]

def c6_prefs : List PrefRow := [⟨"A", "C;D"⟩]

def c6_sections_lo : List SectionRow :=
  [⟨"S1", "C", "t1", "Math", 0⟩, ⟨"S2", "C", "t2", "Math", 10⟩, ⟨"T1", "D", "t3", "Math", 10⟩]

def c6_sections_hi : List SectionRow :=
  [⟨"S1", "C", "t1", "Math", 10⟩, ⟨"S2", "C", "t2", "Math", 10⟩, ⟨"T1", "D", "t3", "Math", 10⟩]

def c6_unav : List UnavRow := [⟨"t1", some "P2"⟩]

def c6_d_lo : SchedData := preprocess_data c6_students c6_prefs c6_sections_lo c6_unav ["P1", "P2"]

def c6_d_hi : SchedData := preprocess_data c6_students c6_prefs c6_sections_hi c6_unav ["P1", "P2"]

/-- Selection-rule counterexample input: a single configured period whose
identifier is the empty string (falsy in Python). -/
def c4_sections : List SectionRow := [⟨"S1", "C", "T", "Math", 30⟩]

def c4_d : SchedData := preprocess_data [] [] c4_sections [] [""]

/-- Scenario D (spec §8): thirteen SPED students all requesting the one
course of a single capacity-13 section. -/
def scenD_studentIds : List StudentId :=
  ["d01", "d02", "d03", "d04", "d05", "d06", "d07", "d08", "d09", "d10", "d11", "d12", "d13"]

def scenD_input : MilpInput :=
  { students := scenD_studentIds.map (fun s => ⟨s, 1⟩)
    student_preferences := scenD_studentIds.map (fun s => ⟨s, "C"⟩)
    sections := [⟨"S1", "C", "T", "Math", 13⟩] }

/-- A feasible Scenario D assignment: the first twelve students enrolled. -/
def scenD_x : StudentId × SectionId → ℤ := fun k =>
  if k.1 ∈ scenD_studentIds.take 12 ∧ k.2 = "S1" then 1 else 0

/-! ## Claims -/

/-- C1: for every input and every pair of distinct sections assigned to the
same teacher, the schedule map returned by `greedy_schedule_sections` (on
preprocessed data) never maps both sections to the same period. -/
theorem greedy_no_teacher_period_conflict
    (students : List StudentRow) (student_preferences : List PrefRow)
    (sections : List SectionRow) (teacher_unavailability : List UnavRow)
    (periods : List Period) (s1 s2 : SectionId) (p : Period)
    (hne : s1 ≠ s2)
    (ht : (preprocess_data students student_preferences sections teacher_unavailability
        periods).section_to_teacher s1
      = (preprocess_data students student_preferences sections teacher_unavailability
        periods).section_to_teacher s2)
    (h1 : dictLookup (greedy_schedule_sections sections periods
        (preprocess_data students student_preferences sections teacher_unavailability
          periods)) s1 = some p) :
    ¬ dictLookup (greedy_schedule_sections sections periods
        (preprocess_data students student_preferences sections teacher_unavailability
          periods)) s2 = some p := by
  intro h2
  exact (greedy_schedule_sections_inv (preprocess_teacher_consistent students
      student_preferences sections teacher_unavailability periods)).2.2 s1 s2 p hne ht h1 h2

/-- C2: in the enrollment map returned by `greedy_assign_students`, no
student holds two sections with equal scheduled periods, and no student
holds two sections of the same course (the mapped lists have no
duplicates). -/
theorem greedy_assign_no_student_conflict
    (students : List StudentRow) (sched : Schedule) (d : SchedData) (sid : StudentId) :
    ((heldOf (greedy_assign_students students sched d) sid).map
        (fun sec => dictLookup sched sec)).Nodup
    ∧ ((heldOf (greedy_assign_students students sched d) sid).map
        d.section_to_course).Nodup :=
  ⟨((greedy_assign_students_inv students sched d).1 sid).1,
    ((greedy_assign_students_inv students sched d).1 sid).2.1⟩

/-- C3: every section in the final schedule map is assigned a period drawn
from its course's allowed-period set (the restricted set for
period-restricted courses, all configured periods otherwise). -/
theorem greedy_schedule_allowed_periods
    (students : List StudentRow) (student_preferences : List PrefRow)
    (sections : List SectionRow) (teacher_unavailability : List UnavRow)
    (periods : List Period) (s : SectionId) (p : Period)
    (h : dictLookup (greedy_schedule_sections sections periods
        (preprocess_data students student_preferences sections teacher_unavailability
          periods)) s = some p) :
    p ∈ allowed_period_set (preprocess_data students student_preferences sections
        teacher_unavailability periods) s := by
  obtain ⟨hper, hspec⟩ := (greedy_schedule_sections_inv (preprocess_teacher_consistent
      students student_preferences sections teacher_unavailability periods)).2.1 s p h
  unfold allowed_period_set
  cases hc : (preprocess_data students student_preferences sections teacher_unavailability
      periods).special_course_periods ((preprocess_data students student_preferences
      sections teacher_unavailability periods).section_to_course s) with
  | some allowed => exact hspec allowed hc
  | none => exact hper

/-- C10: `compute_student_section_score` is total: with Python's
`ZeroDivisionError` made explicit, the checked variant always returns the
plain score — the fill-ratio division is only reached with a capacity
strictly above the current enrollment, hence a nonzero denominator. -/
theorem student_section_score_checked_total
    (student_id section_id : String) (asg : Assignments) (sched : Schedule)
    (d : SchedData) :
    compute_student_section_score_checked student_id section_id asg sched d
      = some (compute_student_section_score student_id section_id asg sched d) := by
  by_cases h1 : d.section_to_course section_id
      ∈ List.map d.section_to_course (heldOf asg student_id)
  · simp [compute_student_section_score, compute_student_section_score_checked, h1]
  by_cases h2 : d.section_to_course section_id ∈ studentPrefCourses d student_id
  case neg =>
    simp [compute_student_section_score, compute_student_section_score_checked, h1, h2]
  by_cases h3 : (dictLookup sched section_id).getD "" = ""
  · simp [compute_student_section_score, compute_student_section_score_checked, h1, h2, h3]
  by_cases h4 : some ((dictLookup sched section_id).getD "")
      ∈ List.map (fun sec => dictLookup sched sec) (heldOf asg student_id)
  · simp [compute_student_section_score, compute_student_section_score_checked,
      h1, h2, h3, h4]
  by_cases h5 : (enrolledStudents asg section_id).length
      ≥ (d.section_capacity section_id).getD 0
  · simp [compute_student_section_score, compute_student_section_score_checked,
      h1, h2, h3, h4, h5]
  cases hcap : d.section_capacity section_id with
  | none =>
      rw [hcap] at h5
      simp at h5
  | some c =>
      have hc0 : ¬ c = 0 := by
        rw [hcap] at h5
        simp at h5
        omega
      have hlt : ¬ c ≤ (enrolledStudents asg section_id).length := by
        rw [hcap] at h5
        simpa using h5
      simp [compute_student_section_score, compute_student_section_score_checked,
        h1, h2, h3, h4, h5, hcap, hc0, hlt]

/-- C5: the greedy scheduler and assigner are deterministic — two runs of
the composed pipeline on identical input data produce identical
section-to-period and student-to-sections maps. -/
theorem greedy_pipeline_deterministic
    (students1 students2 : List StudentRow) (prefs1 prefs2 : List PrefRow)
    (sections1 sections2 : List SectionRow) (unav1 unav2 : List UnavRow)
    (periods1 periods2 : List Period)
    (hs : students1 = students2) (hp : prefs1 = prefs2) (hsec : sections1 = sections2)
    (hu : unav1 = unav2) (hper : periods1 = periods2) :
    greedy_pipeline students1 prefs1 sections1 unav1 periods1
      = greedy_pipeline students2 prefs2 sections2 unav2 periods2 := by
  subst hs hp hsec hu hper
  rfl

/-- C5 witness: re-running on the Scenario B tables yields the identical
result. -/
theorem greedy_pipeline_deterministic_witness :
    greedy_pipeline scenB_students scenB_prefs scenB_sections [] ["P1"]
      = greedy_pipeline scenB_students scenB_prefs scenB_sections [] ["P1"] :=
  greedy_pipeline_deterministic scenB_students scenB_students scenB_prefs scenB_prefs
    scenB_sections scenB_sections [] [] ["P1"] ["P1"] rfl rfl rfl rfl rfl

/-- C7: the exact formulation's objective evaluates to 1000 times the sum of
the missed-request variables plus 1 times the sum of the capacity-overflow
variables, and its sense is minimization. -/
theorem milp_objective_form (inp : MilpInput) (ν : MilpVar → ℚ) :
    evalExpr ν (set_objective inp).expr
      = 1000 * (((missedVarKeys inp).map (fun k => ν (MilpVar.missedv k.1 k.2))).sum)
        + 1 * (((overflowVarKeys inp).map (fun s => ν (MilpVar.overflowv s))).sum)
    ∧ (set_objective inp).minimizeSense = true := by
  constructor
  · show evalExpr ν
        (scaleExpr 1000 (quicksum ((missedVarKeys inp).map (fun k => MilpVar.missedv k.1 k.2)))
          ++ scaleExpr 1 (quicksum ((overflowVarKeys inp).map (fun s => MilpVar.overflowv s))))
      = _
    rw [evalExpr_append, evalExpr_scale_quicksum, evalExpr_scale_quicksum,
      List.map_map, List.map_map]
    rfl
  · rfl

/-- C8: any 0/1 assignment of the `x` variables satisfying the exact
formulation's SPED distribution constraints enrolls at most 12 SPED-flagged
students in every section. -/
theorem milp_sped_cap (inp : MilpInput) (ν : StudentId × SectionId → ℤ)
    (hbin : ∀ k ∈ xKeys inp, ν k = 0 ∨ ν k = 1)
    (hcon : sped_constraints_hold inp ν) :
    ∀ sec ∈ inp.sections.map (fun r => r.sectionId),
      (enrolledSpedCount inp ν sec : ℤ) ≤ 12 := by
  intro sec hsec
  have hc := hcon sec hsec
  have hb : ∀ s ∈ milp_sped_students inp, (s, sec) ∈ xKeys inp →
      ν (s, sec) = 0 ∨ ν (s, sec) = 1 := fun s _ hx => hbin (s, sec) hx
  have hle := count_ones_le_sum (milp_sped_students inp)
    (fun s => (s, sec) ∈ xKeys inp) (fun s => ν (s, sec)) hb
  calc (enrolledSpedCount inp ν sec : ℤ) ≤ spedSum inp ν sec := hle
    _ ≤ 12 := hc

/-- C8 witness (Scenario D): thirteen SPED students requesting the single
capacity-13 section; enrolling the first twelve satisfies the SPED
constraint, and the theorem caps the enrolled SPED count at 12. -/
theorem milp_sped_cap_witness :
    (enrolledSpedCount scenD_input scenD_x "S1" : ℤ) ≤ 12 := by
  refine milp_sped_cap scenD_input scenD_x ?_ ?_ "S1" (by decide)
  · intro k _
    unfold scenD_x
    split
    · exact Or.inr rfl
    · exact Or.inl rfl
  · intro sec hsec
    have : sec = "S1" := by
      simpa [scenD_input] using hsec
    subst this
    decide

/-- C1 witness: two sections of teacher "T"; "S1" lands in "P1", so "S2"
cannot. -/
theorem greedy_no_teacher_period_conflict_witness :
    ¬ dictLookup (greedy_schedule_sections w1_sections ["P1", "P2"] w1_d) "S2"
      = some "P1" :=
  greedy_no_teacher_period_conflict [] [] w1_sections [] ["P1", "P2"] "S1" "S2" "P1"
    (by decide) (by with_unfolding_all rfl)
    (by set_option maxRecDepth 10000 in with_unfolding_all rfl)

/-- C3 witness: the Scenario A section is scheduled to "R1", which lies in
the Medical Career restricted set. -/
theorem greedy_schedule_allowed_periods_witness :
    "R1" ∈ allowed_period_set scenA_d "S1" :=
  greedy_schedule_allowed_periods [] [] scenA_sections [] milp_periods "S1" "R1"
    (by set_option maxRecDepth 10000 in with_unfolding_all rfl)

/-- C9: the greedy path never exceeds capacity — the student-section score
is 0 at or above capacity, every section's final enrollment is at most its
seat capacity, and in Scenario B exactly one of the two students is
enrolled in the capacity-1 section. -/
theorem greedy_capacity_never_exceeded :
    (∀ (student_id section_id : String) (asg : Assignments) (sched : Schedule)
        (d : SchedData),
      (d.section_capacity section_id).getD 0 ≤ enrolledCount asg section_id →
      compute_student_section_score student_id section_id asg sched d = 0)
    ∧ (∀ (students : List StudentRow) (sched : Schedule) (d : SchedData) (sec : SectionId),
        enrolledCount (greedy_assign_students students sched d) sec
          ≤ (d.section_capacity sec).getD 0)
    ∧ enrolledCount (greedy_pipeline scenB_students scenB_prefs scenB_sections []
        ["P1"]).2 "S1" = 1 := by
  refine ⟨?_, ?_, ?_⟩
  · intro student_id section_id asg sched d h
    exact compute_student_section_score_eq_zero_of_full h
  · intro students sched d sec
    exact (greedy_assign_students_inv students sched d).2 sec
  · set_option maxRecDepth 10000 in with_unfolding_all rfl

/-- C9 witness: with student "A" filling the capacity-1 section, the score
of enrolling "B" is 0. -/
theorem greedy_capacity_never_exceeded_witness :
    compute_student_section_score "B" "S1" [("A", ["S1"])] [("S1", "P1")]
      (preprocess_data scenB_students scenB_prefs scenB_sections [] ["P1"]) = 0 :=
  greedy_capacity_never_exceeded.1 "B" "S1" [("A", ["S1"])] [("S1", "P1")]
    (preprocess_data scenB_students scenB_prefs scenB_sections [] ["P1"])
    (by with_unfolding_all decide)

/-- C4 counterexample: with the single configured period `""`, the best
score is 1 > 0, yet the section is left unscheduled — the commit test
`if best_period and best_score > 0` also demands a truthy (nonempty) period
id, so the claim "commits exactly when the maximum score is strictly
greater than 0" fails as stated. -/
theorem greedy_commit_empty_period_counterexample :
    pick_best_period "S1" [""] [] c4_d = (some "", 1)
    ∧ 0 < (pick_best_period "S1" [""] [] c4_d).2
    ∧ greedy_schedule_sections c4_sections [""] c4_d = [] := by
  refine ⟨?_, ?_, ?_⟩
  · set_option maxRecDepth 10000 in with_unfolding_all rfl
  · set_option maxRecDepth 10000 in with_unfolding_all decide
  · set_option maxRecDepth 10000 in with_unfolding_all rfl

/-- C4 (amended): the selection loop evaluates the score of every
configured period; the winner is the first-occurring maximal-scoring
period; the section is committed exactly when the best score is strictly
positive *and* the winning period id is nonempty (Python truthiness),
otherwise it is left out; and in Scenario A the section goes to R1. -/
theorem greedy_selection_rule :
    (∀ (sched : Schedule) (section_id : SectionId) (periods : List Period) (d : SchedData),
      ((pick_best_period section_id periods sched d).1 = none →
        try_schedule sched section_id periods d = sched)
      ∧ (∀ p, (pick_best_period section_id periods sched d).1 = some p →
          (pick_best_period section_id periods sched d).2
              = compute_period_score section_id p sched d
          ∧ p ∈ periods
          ∧ (∀ q ∈ periods, compute_period_score section_id q sched d
              ≤ (pick_best_period section_id periods sched d).2)
          ∧ (∃ l1 l2, periods = l1 ++ p :: l2
              ∧ ∀ q ∈ l1, compute_period_score section_id q sched d
                  < (pick_best_period section_id periods sched d).2)
          ∧ (p ≠ "" → 0 < (pick_best_period section_id periods sched d).2 →
              try_schedule sched section_id periods d = dictInsert sched section_id p)
          ∧ (¬ (p ≠ "" ∧ 0 < (pick_best_period section_id periods sched d).2) →
              try_schedule sched section_id periods d = sched)))
    ∧ greedy_schedule_sections scenA_sections milp_periods scenA_d = [("S1", "R1")] := by
  constructor
  · intro sched section_id periods d
    constructor
    · intro h
      unfold try_schedule
      simp only [h]
    · intro p h
      obtain ⟨hs, hmem, hmax⟩ := pick_best_period_spec h
      refine ⟨hs, hmem, hmax, ?_, ?_, ?_⟩
      · rcases foldl_best_charact (fun q => compute_period_score section_id q sched d)
          periods (none, -1) p h with ⟨_, hnone, _⟩ | ⟨l1, l2, hsplit, hlt, _, _, _⟩
        · simp at hnone
        · exact ⟨l1, l2, hsplit, hlt⟩
      · intro hp hpos
        unfold try_schedule
        simp only [h]
        rw [if_pos ⟨hp, hpos⟩]
      · intro hno
        unfold try_schedule
        simp only [h]
        rw [if_neg hno]
  · set_option maxRecDepth 10000 in with_unfolding_all rfl

/-- C4 witness: in Scenario A the selection loop returns ("R1", 2) and the
commit rule inserts ("S1", "R1"). -/
theorem greedy_selection_rule_witness :
    try_schedule [] "S1" milp_periods scenA_d = dictInsert [] "S1" "R1" :=
  ((greedy_selection_rule.1 [] "S1" milp_periods scenA_d).2 "R1"
    (by set_option maxRecDepth 10000 in with_unfolding_all rfl)).2.2.2.2.1
    (by decide) (by set_option maxRecDepth 10000 in with_unfolding_all decide)

/-- C6 counterexample: raising section "S1"'s capacity from 0 to 10 (all
other input identical) reroutes the single student's course-C seat into the
period of course D's only section, so the missed-request total increases
from 0 to 1 — capacity monotonicity fails for the greedy pipeline. -/
theorem capacity_monotonicity_counterexample :
    c6_sections_hi = c6_sections_lo.map
      (fun r => if r.sectionId = "S1" then { r with capacity := 10 } else r)
    ∧ missed_requests (greedy_pipeline c6_students c6_prefs c6_sections_lo c6_unav
        ["P1", "P2"]).2 c6_d_lo = 0
    ∧ missed_requests (greedy_pipeline c6_students c6_prefs c6_sections_hi c6_unav
        ["P1", "P2"]).2 c6_d_hi = 1 := by
  refine ⟨by decide, ?_, ?_⟩
  · set_option maxRecDepth 10000 in with_unfolding_all rfl
  · set_option maxRecDepth 10000 in with_unfolding_all rfl

set_option maxHeartbeats 1600000 in
/-- C6 (amended): capacity monotonicity holds only locally — for a fixed
enrollment state, raising a section's seat capacity never lowers the
student-section score of any single evaluation (the end-to-end
missed-request count of the pipeline is not monotone, see the
counterexample). -/
theorem student_section_score_capacity_monotone
    (student_id section_id : String) (asg : Assignments) (sched : Schedule)
    (d : SchedData) (c1 c2 : Nat)
    (hcap : d.section_capacity section_id = some c1) (hle : c1 ≤ c2) :
    compute_student_section_score student_id section_id asg sched d
      ≤ compute_student_section_score student_id section_id asg sched
          (bump_capacity d section_id c2) := by
  have hb1 : (bump_capacity d section_id c2).section_to_course = d.section_to_course := rfl
  have hb2 : studentPrefCourses (bump_capacity d section_id c2) = studentPrefCourses d := rfl
  have hb3 : (bump_capacity d section_id c2).sped_students = d.sped_students := rfl
  have hb4 : (bump_capacity d section_id c2).course_to_sections = d.course_to_sections := rfl
  have hcap2 : (bump_capacity d section_id c2).section_capacity section_id = some c2 := by
    simp [bump_capacity]
  by_cases h1 : d.section_to_course section_id
      ∈ List.map d.section_to_course (heldOf asg student_id)
  · simp [compute_student_section_score, hb1, h1]
  by_cases h2 : d.section_to_course section_id ∈ studentPrefCourses d student_id
  case neg =>
    simp [compute_student_section_score, hb1, hb2, h1, h2]
  by_cases h3 : (dictLookup sched section_id).getD "" = ""
  · simp [compute_student_section_score, hb1, hb2, h1, h2, h3]
  by_cases h4 : some ((dictLookup sched section_id).getD "")
      ∈ List.map (fun sec => dictLookup sched sec) (heldOf asg student_id)
  · simp [compute_student_section_score, hb1, hb2, h1, h2, h3, h4]
  by_cases g2 : (enrolledStudents asg section_id).length ≥ c2
  · have g1 : (enrolledStudents asg section_id).length ≥ c1 := le_trans hle g2
    simp [compute_student_section_score, hb1, hb2, hb3, hb4, hcap, hcap2,
      h1, h2, h3, h4, g1, g2]
  by_cases g1 : (enrolledStudents asg section_id).length ≥ c1
  · have hzero : compute_student_section_score student_id section_id asg sched d = 0 :=
      compute_student_section_score_eq_zero_of_full (by
        rw [hcap, enrolledStudents_length] at *
        simpa using g1)
    rw [hzero]
    exact compute_student_section_score_nonneg student_id section_id asg sched
      (bump_capacity d section_id c2)
  · have hc1pos : 0 < c1 := by omega
    have hn : ((enrolledStudents asg section_id).length : ℚ) / (c2 : ℚ)
        ≤ ((enrolledStudents asg section_id).length : ℚ) / (c1 : ℚ) := by
      apply div_le_div_of_nonneg_left (by positivity) (by exact_mod_cast hc1pos)
      exact_mod_cast hle
    have hbase : (11/10 : ℚ) - ((enrolledStudents asg section_id).length : ℚ) / (c1 : ℚ)
        ≤ (11/10 : ℚ) - ((enrolledStudents asg section_id).length : ℚ) / (c2 : ℚ) := by
      linarith
    simp [compute_student_section_score, hb1, hb2, hb3, hb4, hcap, hcap2,
      h1, h2, h3, h4, g1, g2]
    split
    · split
      · split
        · exact mul_le_mul_of_nonneg_right
            (mul_le_mul_of_nonneg_right hbase (by positivity)) (by norm_num)
        · exact mul_le_mul_of_nonneg_right hbase (by norm_num)
      · exact mul_le_mul_of_nonneg_right hbase (by norm_num)
    · split
      · split
        · exact mul_le_mul_of_nonneg_right hbase (by positivity)
        · exact hbase
      · exact hbase

/-- C6-amended witness: on the Scenario B data, raising the capacity of
"S1" from 1 to 5 does not lower the enrollment score. -/
theorem student_section_score_capacity_monotone_witness :
    compute_student_section_score "A" "S1" [] [("S1", "P1")]
        (preprocess_data scenB_students scenB_prefs scenB_sections [] ["P1"])
      ≤ compute_student_section_score "A" "S1" [] [("S1", "P1")]
        (bump_capacity (preprocess_data scenB_students scenB_prefs scenB_sections []
          ["P1"]) "S1" 5) :=
  student_section_score_capacity_monotone "A" "S1" [] [("S1", "P1")]
    (preprocess_data scenB_students scenB_prefs scenB_sections [] ["P1"]) 1 5
    (by with_unfolding_all rfl) (by decide)

end SchoolOpt
